import Mathlib

/-!
Verification of the Avocado TikTok fact-checker extension
(`src/extension/content.js` and the background service worker) against its
natural-language specification.

The JavaScript is shallowly embedded: pure helpers become Lean functions on
`ℚ`/`String`, the `Map`-based result cache becomes an association list with
JS `Map` semantics, and the async `factCheckVideo` function becomes an
explicit state-passing function whose external `fetch` is supplied as a
parameter (the response the network would deliver).
-/

/-- A JavaScript value as far as the content script inspects one: the
`is_factual` field of a claim may be a boolean, `null`, `undefined`, a
string or a number; `getFactualStatus` compares it with `===` against the
two boolean literals. Rationals stand in for JS numbers (the script only
compares and buckets scores, never relies on floating-point rounding). -/
inductive JsValue where
  | bool (b : Bool)
  | null
  | undef
  | str (s : String)
  | num (q : ℚ)
deriving DecidableEq, Repr

/-- The record returned by `getFactualStatus` (content.js:110-114).
The JS field `class` is named `cls` here because `class` is a Lean keyword. -/
structure FactualStatus where
  text : String
  cls : String
deriving DecidableEq, Repr

/-- content.js:110-114 — map the tri-state `is_factual` value to a status
record by strict equality against `true` and `false`. -/
def getFactualStatus (isFactual : JsValue) : FactualStatus :=
  if isFactual = JsValue.bool true then ⟨"Verified", "factual-true"⟩
  else if isFactual = JsValue.bool false then ⟨"False", "factual-false"⟩
  else ⟨"Unverified", "factual-unknown"⟩

/-- content.js:92-98 — map a credibility score to its adjective by fixed
thresholds 0.8 / 0.6 / 0.4 / 0.2. -/
def getCredibilityLabel (score : ℚ) : String :=
  if score ≥ 0.8 then "RELIABLE"
  else if score ≥ 0.6 then "LIKELY TRUE"
  else if score ≥ 0.4 then "MIXED"
  else if score ≥ 0.2 then "DOUBTFUL"
  else "UNRELIABLE"

/-- content.js:101-107 — map a credibility score to a color by the same
thresholds 0.8 / 0.6 / 0.4 / 0.2. -/
def getScoreColor (score : ℚ) : String :=
  if score ≥ 0.8 then "#15803d"
  else if score ≥ 0.6 then "#22c55e"
  else if score ≥ 0.4 then "#4ade80"
  else if score ≥ 0.2 then "#86efac"
  else "#bef264"

/-- A source reference as rendered by `showResults`: the JS objects carry
`title`, `source` (the publisher name) and `url`. -/
structure Source where
  title : String
  source : String
  url : String
deriving DecidableEq, Repr

/-- One claim object of the backend result, as read by `showResults`:
the claim text, the tri-state verdict, the justification text and the
attached sources (a missing/empty `sources` array is modelled as `[]`). -/
structure ClaimData where
  claim : String
  is_factual : JsValue
  verification : String
  sources : List Source
deriving DecidableEq, Repr

/-- The backend `/check` result as consumed by `showResults`. It includes
the backend-reported `credibility_level` string, which `showResults` never
reads: the displayed label is recomputed from `credibility_score`. -/
structure FactCheckResult where
  video_url : String
  credibility_score : ℚ
  credibility_level : String
  summary : Option String
  claims : List ClaimData
  has_transcript : Bool
deriving DecidableEq, Repr

/-- content.js:120 — the label shown in the panel is computed from the
score field alone: `const label = getCredibilityLabel(result.credibility_score)`. -/
def showResultsLabel (result : FactCheckResult) : String :=
  getCredibilityLabel result.credibility_score

/-- content.js:121 — the color shown in the panel:
`const color = getScoreColor(result.credibility_score)`. -/
def showResultsColor (result : FactCheckResult) : String :=
  getScoreColor result.credibility_score

/-- content.js:130-138 — collect the sources of all claims in claim order
(`result.claims.forEach(... allSources.push(...claimData.sources))`, where a
claim with no or empty `sources` contributes nothing). -/
def allSourcesOf (result : FactCheckResult) : List Source :=
  result.claims.foldl
    (fun acc claimData =>
      if 0 < claimData.sources.length then acc ++ claimData.sources else acc)
    []

/-- content.js:141-143 — `allSources.filter((source, index, self) =>
index === self.findIndex(s => s.title === source.title && s.source === source.source))`:
keep an element exactly when its index is the first index holding its
(title, source) pair. -/
def uniqueSourcesOf (l : List Source) : List Source :=
  (l.enum.filter
      (fun p =>
        l.findIdx (fun s => s.title == p.2.title && s.source == p.2.source) == p.1)).map
    Prod.snd

/-- The bucket index 0..4 shared by `getCredibilityLabel` and
`getScoreColor`: both functions branch on exactly these comparisons. -/
def scoreBucket (score : ℚ) : Nat :=
  if score ≥ 0.8 then 4
  else if score ≥ 0.6 then 3
  else if score ≥ 0.4 then 2
  else if score ≥ 0.2 then 1
  else 0

/-- The label chosen for each bucket index. -/
def labelOfBucket : Nat → String
  | 4 => "RELIABLE"
  | 3 => "LIKELY TRUE"
  | 2 => "MIXED"
  | 1 => "DOUBTFUL"
  | _ => "UNRELIABLE"

/-- The color chosen for each bucket index. -/
def colorOfBucket : Nat → String
  | 4 => "#15803d"
  | 3 => "#22c55e"
  | 2 => "#4ade80"
  | 1 => "#86efac"
  | _ => "#bef264"

/-- Rank of a credibility label, `UNRELIABLE` lowest, `RELIABLE` highest. -/
def labelRank (label : String) : Nat :=
  if label = "RELIABLE" then 4
  else if label = "LIKELY TRUE" then 3
  else if label = "MIXED" then 2
  else if label = "DOUBTFUL" then 1
  else 0

lemma getCredibilityLabel_eq_bucket (score : ℚ) :
    getCredibilityLabel score = labelOfBucket (scoreBucket score) := by
  unfold getCredibilityLabel scoreBucket
  split_ifs <;> rfl

lemma getScoreColor_eq_bucket (score : ℚ) :
    getScoreColor score = colorOfBucket (scoreBucket score) := by
  unfold getScoreColor scoreBucket
  split_ifs <;> rfl

lemma scoreBucket_le_four (score : ℚ) : scoreBucket score ≤ 4 := by
  unfold scoreBucket
  split_ifs <;> norm_num

lemma scoreBucket_mono {s1 s2 : ℚ} (h : s1 ≤ s2) : scoreBucket s1 ≤ scoreBucket s2 := by
  unfold scoreBucket
  split_ifs <;> simp only [ge_iff_le, not_le] at * <;> first | omega | linarith

lemma labelOfBucket_inj_on : ∀ b1 < 5, ∀ b2 < 5,
    (labelOfBucket b1 = labelOfBucket b2 ↔ b1 = b2) := by decide

lemma colorOfBucket_inj_on : ∀ b1 < 5, ∀ b2 < 5,
    (colorOfBucket b1 = colorOfBucket b2 ↔ b1 = b2) := by decide

lemma labelRank_ofBucket : ∀ b < 5, labelRank (labelOfBucket b) = b := by decide

/-- Minimal model of a parsed JSON body as the scripts inspect one: the
error path reads only the `detail` property; on the success path the whole
parsed object is returned opaquely, represented by `payload`. -/
structure Json where
  detail : Option String
  payload : String
deriving DecidableEq, Repr

instance : Inhabited Json := ⟨⟨none, ""⟩⟩

/-- An HTTP response as the scripts inspect one: `ok`, `status`, and the
value `response.json()` resolves to (`none` when the body fails to parse
and the promise rejects). -/
structure HttpResponse where
  ok : Bool
  status : Nat
  json : Option Json
deriving DecidableEq, Repr

deriving instance DecidableEq for Except

/-- The outcome of `fetch`: a resolved response, or a rejection
(network failure). Non-2xx statuses resolve with `ok = false`. -/
inductive FetchOutcome where
  | success (resp : HttpResponse)
  | networkError (msg : String)
deriving DecidableEq, Repr

/-- A JS `Map` with string keys, in insertion order. -/
abbrev JsMap (α : Type) := List (String × α)

/-- `Map.prototype.has`. -/
def jsMapHas {α : Type} (k : String) (m : JsMap α) : Bool :=
  m.any (fun p => p.1 == k)

/-- `Map.prototype.get` (`none` plays the role of `undefined`). -/
def jsMapGet {α : Type} (k : String) (m : JsMap α) : Option α :=
  (m.find? (fun p => p.1 == k)).map Prod.snd

/-- `Map.prototype.set`: replace in place when the key exists, else append. -/
def jsMapSet {α : Type} (k : String) (v : α) (m : JsMap α) : JsMap α :=
  if jsMapHas k m then m.map (fun p => if p.1 == k then (k, v) else p)
  else m ++ [(k, v)]

/-- `Map.prototype.size`: `jsMapSet` never duplicates a key, so the list
length is the entry count. -/
def jsMapSize {α : Type} (m : JsMap α) : Nat := m.length

/-- Message of the error thrown when `response.json()` rejects on the ok
path; identical in both scripts since both call the same method. -/
def jsonParseErrorMsg : String := "SyntaxError: unexpected end of JSON input"

/-- JS `x || y` where `x` is the possibly-missing string `errorData.detail`:
`undefined` and the empty string are falsy. -/
def jsOrString (v : Option String) (fallback : String) : String :=
  match v with
  | some s => if s = "" then fallback else s
  | none => fallback

/-- The error message built on a non-ok response in both scripts:
`errorData.detail \x7c\x7c "HTTP error! status: S"` where `errorData` is
`await response.json().catch(() => ({}))`. -/
def httpErrorOf (resp : HttpResponse) : String :=
  jsOrString (resp.json.getD default).detail
    ("HTTP error! status: " ++ toString resp.status)

/-- Result of one `factCheckVideo` call: the value returned or error
thrown, the cache afterwards, and whether the external `/check` request
was issued (`fetched = false` exactly on a cache hit). -/
structure FCOutcome where
  result : Except String Json
  cache : JsMap Json
  fetched : Bool
deriving DecidableEq, Repr


/-- The tail of `factCheckVideo` after the cache check misses
(content.js:470-496): issue the fetch, and on a resolved ok response parse
and store the result; on a non-ok response or a rejection, throw without
touching the cache. -/
def factCheckVideoResume (outcome : FetchOutcome) (tiktokUrl : String)
    (cache : JsMap Json) : Except String Json × JsMap Json :=
  match outcome with
  | .networkError msg => (Except.error msg, cache)
  | .success resp =>
    if resp.ok then
      match resp.json with
      | some result => (Except.ok result, jsMapSet tiktokUrl result cache)
      | none => (Except.error jsonParseErrorMsg, cache)
    else
      (Except.error (httpErrorOf resp), cache)

/-- content.js:463-497 — `factCheckVideo`: return the cached value when
`factCheckCache.has(tiktokUrl)` (no fetch), otherwise fetch `/check` and on
success store the parsed result under the raw URL string. The network's
behaviour is passed in as `outcome`. -/
def factCheckVideo (outcome : FetchOutcome) (tiktokUrl : String)
    (cache : JsMap Json) : FCOutcome :=
  if jsMapHas tiktokUrl cache then
    ⟨Except.ok ((jsMapGet tiktokUrl cache).getD default), cache, false⟩
  else
    let s := factCheckVideoResume outcome tiktokUrl cache
    ⟨s.1, s.2, true⟩

/-- Background service worker `handleFactCheck` (part_000:16-41): the same
fetch/parse/throw logic as `factCheckVideo`, with no cache. -/
def handleFactCheck (outcome : FetchOutcome) (tiktokUrl : String) :
    Except String Json :=
  match outcome with
  | .networkError msg => Except.error msg
  | .success resp =>
    if resp.ok then
      match resp.json with
      | some data => Except.ok data
      | none => Except.error jsonParseErrorMsg
    else
      Except.error (httpErrorOf resp)

/-- content.js's `factCheckVideo` reads no clock: this wrapper threads the
wall-clock time of the call (milliseconds) so that TTL statements can be
made, and ignores it exactly as the source does. -/
def factCheckVideoAt (nowMs : Nat) (outcome : FetchOutcome)
    (tiktokUrl : String) (cache : JsMap Json) : FCOutcome :=
  factCheckVideo outcome tiktokUrl cache

/-- Modelled from the spec: the documented cache TTL (CACHE_TTL = 3600
seconds for the backend cache), in milliseconds. content.js itself defines
no TTL; the constant only serves to state the TTL claims. -/
def CACHE_TTL_MS : Nat := 3600 * 1000

/-- Modelled from the spec: the documented maximum entry count
(CACHE_MAX_SIZE, default 1000, for the backend cache). content.js itself
configures no bound; the constant only serves to state the bound claim. -/
def CACHE_MAX_SIZE : Nat := 1000

/-- Joint outcome of two interleaved `factCheckVideo` calls. -/
structure TwoCallOutcome where
  result1 : Except String Json
  result2 : Except String Json
  cache : JsMap Json
  extCalls : Nat
deriving DecidableEq, Repr

/-- Two concurrent `factCheckVideo` calls for the same URL, interleaved as
the JS event loop allows: the second call's synchronous cache check
(content.js:465) runs while the first call's `fetch` is still awaiting,
i.e. before the first call reaches `factCheckCache.set` (content.js:490).
Each call that saw a miss then resumes in order, issuing its own external
request. `extCalls` counts the `/check` requests issued. -/
def twoInterleavedCalls (o1 o2 : FetchOutcome) (url : String)
    (cache : JsMap Json) : TwoCallOutcome :=
  let hit1 := jsMapHas url cache
  let hit2 := jsMapHas url cache
  let s1 : Except String Json × JsMap Json :=
    if hit1 then (Except.ok ((jsMapGet url cache).getD default), cache)
    else factCheckVideoResume o1 url cache
  let s2 : Except String Json × JsMap Json :=
    if hit2 then (Except.ok ((jsMapGet url cache).getD default), s1.2)
    else factCheckVideoResume o2 url s1.2
  ⟨s1.1, s2.1, s2.2, (if hit1 then 0 else 1) + (if hit2 then 0 else 1)⟩

/-- A sequence of `factCheckVideo` calls with distinct URLs, every fetch
answered by the same ok response: models repeated cache insertions. -/
def insertAll (urls : List String) (resp : HttpResponse)
    (cache : JsMap Json) : JsMap Json :=
  urls.foldl (fun c u => (factCheckVideo (.success resp) u c).cache) cache

/-- A family of pairwise distinct URL strings used as cache keys. -/
def urlN (n : Nat) : String := String.mk (List.replicate n 'a')

/-- Fixture: a first parsed result body. -/
def jsonOne : Json := ⟨none, "result-one"⟩

/-- Fixture: a second, different parsed result body. -/
def jsonTwo : Json := ⟨none, "result-two"⟩

/-- Fixture: an ok response whose body parses to `jsonOne`. -/
def okRespEx : HttpResponse := ⟨true, 200, some jsonOne⟩

/-- Fixture: an ok response whose body parses to `jsonTwo`. -/
def okRespEx2 : HttpResponse := ⟨true, 200, some jsonTwo⟩

/-- Fixture: a failing response: HTTP 500 whose body carries a detail. -/
def badRespEx : HttpResponse := ⟨false, 500, some ⟨some "Scrape failed", ""⟩⟩

lemma jsMapHas_of_get {α : Type} {k : String} {m : JsMap α} {r : α}
    (h : jsMapGet k m = some r) : jsMapHas k m = true := by
  unfold jsMapGet at h
  obtain ⟨p, hp, hpr⟩ := Option.map_eq_some'.mp h
  have hpk : (p.1 == k) = true := @List.find?_some _ (fun q => q.1 == k) p m hp
  exact List.any_eq_true.mpr ⟨p, List.mem_of_find?_eq_some hp, hpk⟩

lemma factCheckVideo_hit {url : String} {cache : JsMap Json} {r : Json}
    (outcome : FetchOutcome) (h : jsMapGet url cache = some r) :
    factCheckVideo outcome url cache = ⟨Except.ok r, cache, false⟩ := by
  unfold factCheckVideo
  rw [jsMapHas_of_get h]
  simp [h]

lemma jsMapHas_nil {α : Type} (k : String) : jsMapHas k ([] : JsMap α) = false := rfl

lemma jsMapSet_fresh {α : Type} {k : String} {m : JsMap α} (v : α)
    (h : jsMapHas k m = false) : jsMapSet k v m = m ++ [(k, v)] := by
  simp [jsMapSet, h]

lemma jsMapHas_append {α : Type} (k : String) (m1 m2 : JsMap α) :
    jsMapHas k (m1 ++ m2) = (jsMapHas k m1 || jsMapHas k m2) := by
  simp [jsMapHas, List.any_append]

lemma jsMapHas_singleton {α : Type} (k k' : String) (v : α) :
    jsMapHas k [(k', v)] = (k' == k) := by
  simp [jsMapHas]

lemma factCheckVideo_cache_ok_fresh {url : String} {cache : JsMap Json} {r : Json}
    {resp : HttpResponse} (hok : resp.ok = true) (hjson : resp.json = some r)
    (h : jsMapHas url cache = false) :
    (factCheckVideo (.success resp) url cache).cache = cache ++ [(url, r)] := by
  simp [factCheckVideo, factCheckVideoResume, h, hok, hjson, jsMapSet_fresh r h]

lemma factCheckVideo_cache_cases (outcome : FetchOutcome) (url : String)
    (cache : JsMap Json) :
    (factCheckVideo outcome url cache).cache = cache ∨
      ∃ v, jsMapHas url cache = false ∧
        (factCheckVideo outcome url cache).cache = cache ++ [(url, v)] := by
  unfold factCheckVideo
  by_cases h : jsMapHas url cache
  · simp [h]
  · simp only [h, Bool.false_eq_true, if_false]
    cases outcome with
    | networkError msg => simp [factCheckVideoResume]
    | success resp =>
      by_cases hok : resp.ok
      · cases hjson : resp.json with
        | none => simp [factCheckVideoResume, hok, hjson]
        | some v =>
          refine Or.inr ⟨v, by simpa using h, ?_⟩
          simp [factCheckVideoResume, hok, hjson, jsMapSet_fresh v (by simpa using h)]
      · simp [factCheckVideoResume, hok]

lemma factCheckVideo_preserves_has {k : String} (outcome : FetchOutcome)
    (url : String) (cache : JsMap Json) (h : jsMapHas k cache = true) :
    jsMapHas k ((factCheckVideo outcome url cache).cache) = true := by
  rcases factCheckVideo_cache_cases outcome url cache with hc | ⟨v, _, hc⟩ <;>
    rw [hc] <;> simp [jsMapHas_append, h]

lemma insertAll_cons (u : String) (t : List String) (resp : HttpResponse)
    (cache : JsMap Json) :
    insertAll (u :: t) resp cache =
      insertAll t resp ((factCheckVideo (.success resp) u cache).cache) := rfl

lemma insertAll_preserves_has {k : String} (urls : List String)
    (resp : HttpResponse) (cache : JsMap Json) (h : jsMapHas k cache = true) :
    jsMapHas k (insertAll urls resp cache) = true := by
  induction urls generalizing cache with
  | nil => exact h
  | cons u t ih =>
    rw [insertAll_cons]
    exact ih _ (factCheckVideo_preserves_has _ u cache h)

lemma insertAll_size {resp : HttpResponse} {r : Json} (hok : resp.ok = true)
    (hjson : resp.json = some r) (urls : List String) (cache : JsMap Json)
    (hnd : urls.Nodup) (hfresh : ∀ u ∈ urls, jsMapHas u cache = false) :
    jsMapSize (insertAll urls resp cache) = jsMapSize cache + urls.length := by
  induction urls generalizing cache with
  | nil => simp [insertAll]
  | cons u t ih =>
    rw [insertAll_cons,
      factCheckVideo_cache_ok_fresh hok hjson (hfresh u (List.mem_cons_self u t))]
    have hfresh' : ∀ u' ∈ t, jsMapHas u' (cache ++ [(u, r)]) = false := by
      intro u' hu'
      rw [jsMapHas_append, jsMapHas_singleton]
      have hne : u ≠ u' := fun he => (List.nodup_cons.mp hnd).1 (he ▸ hu')
      simp [hfresh u' (List.mem_cons_of_mem u hu'), hne]
    rw [ih _ (List.nodup_cons.mp hnd).2 hfresh']
    simp [jsMapSize]
    omega

lemma insertAll_mem_has {resp : HttpResponse} {r : Json} (hok : resp.ok = true)
    (hjson : resp.json = some r) (urls : List String) (cache : JsMap Json) :
    ∀ u ∈ urls, jsMapHas u (insertAll urls resp cache) = true := by
  induction urls generalizing cache with
  | nil => intro u hu; cases hu
  | cons v t ih =>
    intro u hu
    rw [insertAll_cons]
    rcases List.mem_cons.mp hu with rfl | hu
    · apply insertAll_preserves_has
      by_cases h : jsMapHas u cache
      · rcases factCheckVideo_cache_cases (.success resp) u cache with hc | ⟨w, _, hc⟩ <;>
          rw [hc] <;> simp [jsMapHas_append, h]
      · rw [factCheckVideo_cache_ok_fresh hok hjson (by simpa using h)]
        simp [jsMapHas_append, jsMapHas_singleton]
    · exact ih _ u hu

/-- The URL keys `urlN 0`, ..., `urlN 1000`: 1001 pairwise distinct cache keys. -/
def urls1001 : List String := (List.range 1001).map urlN

lemma urlN_injective : Function.Injective urlN := by
  intro a b h
  have hd : List.replicate a 'a' = List.replicate b 'a' := by
    have hh : (urlN a).data = (urlN b).data := congrArg String.data h
    simpa [urlN] using hh
  simpa using congrArg List.length hd

lemma urls1001_nodup : urls1001.Nodup :=
  (List.nodup_range 1001).map urlN_injective

/-- C1 counterexample: a result cached for the tracking-parameter form of a
video URL is not returned for the resolved form: the second request misses
the cache, issues a second external computation and returns that second
computation's result. -/
theorem cacheKey_tracking_param_counterexample :
    (factCheckVideo (.success okRespEx2) "https://www.tiktok.com/@alice/video/555"
        (factCheckVideo (.success okRespEx) "https://www.tiktok.com/@alice/video/555?lang=en"
          []).cache).fetched = true ∧
    (factCheckVideo (.success okRespEx2) "https://www.tiktok.com/@alice/video/555"
        (factCheckVideo (.success okRespEx) "https://www.tiktok.com/@alice/video/555?lang=en"
          []).cache).result = Except.ok jsonTwo := by decide

/-- C1 (amended): the content script keys its cache on the raw URL string:
a cached result is returned, with no second computation, exactly for a later
request whose URL is the identical string. -/
theorem cacheKey_exact_url_hit (outcome : FetchOutcome) (url : String)
    (cache : JsMap Json) (r : Json) (h : jsMapGet url cache = some r) :
    factCheckVideo outcome url cache = ⟨Except.ok r, cache, false⟩ :=
  factCheckVideo_hit outcome h

theorem cacheKey_exact_url_hit_witness :
    factCheckVideo (.success okRespEx2) "u" [("u", jsonOne)] =
      ⟨Except.ok jsonOne, [("u", jsonOne)], false⟩ :=
  cacheKey_exact_url_hit _ _ _ _ (by decide)

/-- C2: the credibility label `showResults` displays is a pure function of
`credibility_score` alone — two results with equal scores get equal labels
whatever their other fields (including the backend-reported
`credibility_level` text) — and it equals the fixed-threshold bucketing
`getCredibilityLabel` of the score. -/
theorem credibilityLabel_pure_function_of_score (r1 r2 : FactCheckResult)
    (h : r1.credibility_score = r2.credibility_score) :
    showResultsLabel r1 = showResultsLabel r2 ∧
    showResultsLabel r1 = getCredibilityLabel r1.credibility_score :=
  ⟨by unfold showResultsLabel; rw [h], rfl⟩

theorem credibilityLabel_pure_function_of_score_witness :
    showResultsLabel ⟨"u1", 0.75, "high", some "model text", [], true⟩ =
      showResultsLabel ⟨"u2", 0.75, "low", none, [], false⟩ ∧
    showResultsLabel ⟨"u1", 0.75, "high", some "model text", [], true⟩ =
      getCredibilityLabel 0.75 :=
  credibilityLabel_pure_function_of_score _ _ rfl

/-- C3 counterexample: two interleaved calls for the same key, both checking
the cache before the first stores, issue two external calls, and the second
caller receives its own fetch's result, which differs from the first's. -/
theorem singleFlight_counterexample :
    (twoInterleavedCalls (.success okRespEx) (.success okRespEx2) "u" []).extCalls = 2 ∧
    (twoInterleavedCalls (.success okRespEx) (.success okRespEx2) "u" []).result1 =
      Except.ok jsonOne ∧
    (twoInterleavedCalls (.success okRespEx) (.success okRespEx2) "u" []).result2 =
      Except.ok jsonTwo ∧
    jsonOne ≠ jsonTwo := by decide

/-- C3 (amended): the content script has no single-flight guard: whenever two
concurrent calls for the same key both pass their cache check before the
first stores its result, each issues its own external call — two external
computations for one key. -/
theorem concurrentMiss_two_external_calls (o1 o2 : FetchOutcome) (url : String)
    (cache : JsMap Json) (h : jsMapHas url cache = false) :
    (twoInterleavedCalls o1 o2 url cache).extCalls = 2 := by
  simp [twoInterleavedCalls, h]

theorem concurrentMiss_two_external_calls_witness :
    (twoInterleavedCalls (.success okRespEx) (.success okRespEx) "u" []).extCalls = 2 :=
  concurrentMiss_two_external_calls _ _ _ _ rfl

/-- C4 counterexample: a lookup made one millisecond after the documented
TTL has elapsed still returns the stale stored result and does not trigger a
fresh computation (the fetch, which would have returned a different result,
is not issued). -/
theorem ttl_expiry_counterexample :
    (factCheckVideoAt (CACHE_TTL_MS + 1) (.success okRespEx2) "u"
        (factCheckVideoAt 0 (.success okRespEx) "u" []).cache).fetched = false ∧
    (factCheckVideoAt (CACHE_TTL_MS + 1) (.success okRespEx2) "u"
        (factCheckVideoAt 0 (.success okRespEx) "u" []).cache).result =
      Except.ok jsonOne := by decide

/-- C4 (amended): a cache hit returns the stored result unchanged without
invoking the compute path, at every call time — the cache has no TTL, so a
lookup arbitrarily long after the store still returns the entry and never
triggers a fresh computation. -/
theorem cacheHit_no_expiry (nowMs : Nat) (outcome : FetchOutcome) (url : String)
    (cache : JsMap Json) (r : Json) (h : jsMapGet url cache = some r) :
    factCheckVideoAt nowMs outcome url cache = ⟨Except.ok r, cache, false⟩ :=
  factCheckVideo_hit outcome h

theorem cacheHit_no_expiry_witness :
    factCheckVideoAt (CACHE_TTL_MS * 1000) (.success okRespEx2) "u" [("u", jsonOne)] =
      ⟨Except.ok jsonOne, [("u", jsonOne)], false⟩ :=
  cacheHit_no_expiry _ _ _ _ _ (by decide)

/-- C5: a call whose computation fails (network rejection, unparsable ok
body, or non-ok HTTP response) leaves the cache exactly as it was, and a
subsequent call for the same key issues the external request again — no
failed entry blocks the retry. -/
theorem failure_not_cached (outcome : FetchOutcome) (url : String)
    (cache : JsMap Json) (e : String)
    (h : (factCheckVideo outcome url cache).result = Except.error e) :
    (factCheckVideo outcome url cache).cache = cache ∧
    ∀ outcome2 : FetchOutcome,
      (factCheckVideo outcome2 url (factCheckVideo outcome url cache).cache).fetched
        = true := by
  have hh : jsMapHas url cache = false := by
    by_contra hc
    have hb : jsMapHas url cache = true := by simpa using hc
    unfold factCheckVideo at h
    rw [hb] at h
    simp at h
  have hcache : (factCheckVideo outcome url cache).cache = cache := by
    unfold factCheckVideo at h ⊢
    simp only [hh, Bool.false_eq_true, if_false] at h ⊢
    cases outcome with
    | networkError msg => rfl
    | success resp =>
      by_cases hok : resp.ok
      · cases hjson : resp.json with
        | some v => exfalso; simp [factCheckVideoResume, hok, hjson] at h
        | none => simp [factCheckVideoResume, hok, hjson]
      · simp [factCheckVideoResume, hok]
  refine ⟨hcache, fun o2 => ?_⟩
  rw [hcache]
  unfold factCheckVideo
  simp [hh]

theorem failure_not_cached_witness :
    (factCheckVideo (.success badRespEx) "u" []).cache = [] ∧
    ∀ outcome2 : FetchOutcome,
      (factCheckVideo outcome2 "u" (factCheckVideo (.success badRespEx) "u" []).cache).fetched
        = true :=
  failure_not_cached _ _ _ "Scrape failed" (by decide)

/-- C6 counterexample: 1001 fact-check calls with pairwise distinct URLs
insert 1001 entries: the entry count exceeds the documented maximum of 1000
and the oldest entry is still present — nothing is ever evicted. -/
theorem cacheBound_counterexample :
    jsMapSize (insertAll urls1001 okRespEx []) = 1001 ∧
    CACHE_MAX_SIZE < jsMapSize (insertAll urls1001 okRespEx []) ∧
    jsMapHas (urlN 0) (insertAll urls1001 okRespEx []) = true := by
  have hlen : urls1001.length = 1001 := by
    unfold urls1001
    rw [List.length_map, List.length_range]
  have hs : jsMapSize (insertAll urls1001 okRespEx []) = 1001 := by
    have h := @insertAll_size okRespEx jsonOne rfl rfl urls1001 []
      urls1001_nodup (fun u _ => rfl)
    rw [h, hlen]
    simp [jsMapSize]
  refine ⟨hs, ?_, ?_⟩
  · rw [hs]; norm_num [CACHE_MAX_SIZE]
  · exact @insertAll_mem_has okRespEx jsonOne rfl rfl urls1001 [] (urlN 0)
      (List.mem_map_of_mem urlN (List.mem_range.mpr (by norm_num)))

/-- C6 (amended): the cache is unbounded — fact-checking any list of
pairwise distinct fresh URLs grows the entry count by exactly the number of
URLs, and every inserted entry, the oldest included, is still present
afterwards: no eviction ever occurs. -/
theorem cache_unbounded_no_eviction (resp : HttpResponse) (r : Json)
    (hok : resp.ok = true) (hjson : resp.json = some r) (urls : List String)
    (cache : JsMap Json) (hnd : urls.Nodup)
    (hfresh : ∀ u ∈ urls, jsMapHas u cache = false) :
    jsMapSize (insertAll urls resp cache) = jsMapSize cache + urls.length ∧
    ∀ u ∈ urls, jsMapHas u (insertAll urls resp cache) = true :=
  ⟨insertAll_size hok hjson urls cache hnd hfresh,
   insertAll_mem_has hok hjson urls cache⟩

theorem cache_unbounded_no_eviction_witness :
    jsMapSize (insertAll ["a", "b", "c"] okRespEx []) = jsMapSize ([] : JsMap Json) + 3 ∧
    ∀ u ∈ ["a", "b", "c"], jsMapHas u (insertAll ["a", "b", "c"] okRespEx []) = true :=
  cache_unbounded_no_eviction okRespEx jsonOne rfl rfl _ _ (by decide) (fun u _ => rfl)

/-- C8: `getFactualStatus` is an exhaustive tri-state mapping: exactly the
value `true` yields the verified status, exactly `false` yields the false
status, every other value (null, undefined, strings, numbers) yields the
unverified status, and no other status is ever produced. -/
theorem factualStatus_tristate (v : JsValue) :
    (getFactualStatus v = ⟨"Verified", "factual-true"⟩ ↔ v = JsValue.bool true) ∧
    (getFactualStatus v = ⟨"False", "factual-false"⟩ ↔ v = JsValue.bool false) ∧
    (v ≠ JsValue.bool true → v ≠ JsValue.bool false →
      getFactualStatus v = ⟨"Unverified", "factual-unknown"⟩) ∧
    (getFactualStatus v = ⟨"Verified", "factual-true"⟩ ∨
      getFactualStatus v = ⟨"False", "factual-false"⟩ ∨
      getFactualStatus v = ⟨"Unverified", "factual-unknown"⟩) := by
  unfold getFactualStatus
  by_cases h1 : v = JsValue.bool true
  · subst h1; simp
  · by_cases h2 : v = JsValue.bool false
    · subst h2; simp
    · simp [h1, h2]

theorem factualStatus_tristate_witness :
    getFactualStatus JsValue.null = ⟨"Unverified", "factual-unknown"⟩ :=
  (factualStatus_tristate JsValue.null).2.2.1 (by decide) (by decide)

lemma resume_result_eq_handleFactCheck (outcome : FetchOutcome) (url : String)
    (cache : JsMap Json) :
    (factCheckVideoResume outcome url cache).1 = handleFactCheck outcome url := by
  cases outcome with
  | networkError msg => rfl
  | success resp =>
    by_cases hok : resp.ok
    · cases hjson : resp.json <;>
        simp [factCheckVideoResume, handleFactCheck, hok, hjson]
    · simp [factCheckVideoResume, handleFactCheck, hok]

/-- C9: on a cache miss, the content script's `factCheckVideo` and the
background worker's `handleFactCheck` are equivalent: for the same URL and
the same fetch outcome both return the same parsed result on an ok
response, and both throw the error carrying the body's `detail` (or the
HTTP-status message when no detail is present) on a non-ok response. -/
theorem contentScript_background_equivalent (outcome : FetchOutcome)
    (url : String) (cache : JsMap Json) (h : jsMapHas url cache = false) :
    (factCheckVideo outcome url cache).result = handleFactCheck outcome url := by
  unfold factCheckVideo
  simp only [h, Bool.false_eq_true, if_false]
  exact resume_result_eq_handleFactCheck outcome url cache

theorem contentScript_background_equivalent_witness :
    (factCheckVideo (.success badRespEx) "u" []).result =
      handleFactCheck (.success badRespEx) "u" :=
  contentScript_background_equivalent _ _ _ rfl

/-- C10: `getCredibilityLabel` and `getScoreColor` are total on scores and
select by the same threshold partition (boundaries 0.8, 0.6, 0.4, 0.2,
made explicit by `scoreBucket`): two scores get equal labels exactly when
they get equal colors, and the label is monotone — a higher score never
receives a lower-ranked label. -/
theorem label_color_partition_monotone (s1 s2 : ℚ) :
    (getCredibilityLabel s1 = getCredibilityLabel s2 ↔
      getScoreColor s1 = getScoreColor s2) ∧
    (s1 ≤ s2 →
      labelRank (getCredibilityLabel s1) ≤ labelRank (getCredibilityLabel s2)) ∧
    getCredibilityLabel s1 = labelOfBucket (scoreBucket s1) ∧
    getScoreColor s1 = colorOfBucket (scoreBucket s1) := by
  have hb1 : scoreBucket s1 < 5 := Nat.lt_succ_of_le (scoreBucket_le_four s1)
  have hb2 : scoreBucket s2 < 5 := Nat.lt_succ_of_le (scoreBucket_le_four s2)
  refine ⟨?_, ?_, getCredibilityLabel_eq_bucket s1, getScoreColor_eq_bucket s1⟩
  · rw [getCredibilityLabel_eq_bucket, getCredibilityLabel_eq_bucket,
      getScoreColor_eq_bucket, getScoreColor_eq_bucket,
      labelOfBucket_inj_on _ hb1 _ hb2, colorOfBucket_inj_on _ hb1 _ hb2]
  · intro h
    rw [getCredibilityLabel_eq_bucket, getCredibilityLabel_eq_bucket,
      labelRank_ofBucket _ hb1, labelRank_ofBucket _ hb2]
    exact scoreBucket_mono h

theorem label_color_partition_monotone_witness :
    labelRank (getCredibilityLabel (3 / 10 : ℚ)) ≤
      labelRank (getCredibilityLabel (9 / 10 : ℚ)) :=
  (label_color_partition_monotone (3 / 10) (9 / 10)).2.1 (by norm_num)

lemma find?_eq_getElem?_findIdx {α : Type} (p : α → Bool) (l : List α) :
    l.find? p = l[l.findIdx p]? := by
  induction l with
  | nil => rfl
  | cons x xs ih =>
    by_cases h : p x
    · simp [List.find?_cons, h, List.findIdx_cons]
    · simp [List.find?_cons, h, List.findIdx_cons, ih]

lemma pairwise_fst_lt_enumFrom {α : Type} (n : Nat) (l : List α) :
    (List.enumFrom n l).Pairwise (fun p q => p.1 < q.1) := by
  induction l generalizing n with
  | nil => simp
  | cons x xs ih =>
    refine List.Pairwise.cons ?_ (ih (n + 1))
    rintro ⟨i, a⟩ hq
    have h := (List.mem_enumFrom hq).1
    simpa using Nat.lt_of_succ_le h

lemma pairwise_fst_lt_enum {α : Type} (l : List α) :
    l.enum.Pairwise (fun p q => p.1 < q.1) :=
  pairwise_fst_lt_enumFrom 0 l

lemma findIdx_key_congr {l : List Source} {a b : Source}
    (ht : a.title = b.title) (hs : a.source = b.source) :
    l.findIdx (fun s => s.title == a.title && s.source == a.source) =
      l.findIdx (fun s => s.title == b.title && s.source == b.source) := by
  rw [ht, hs]

lemma mem_uniqueSources_iff {l : List Source} {t : Source} :
    t ∈ uniqueSourcesOf l ↔
      ∃ i, l[i]? = some t ∧
        l.findIdx (fun s => s.title == t.title && s.source == t.source) = i := by
  unfold uniqueSourcesOf
  constructor
  · intro ht
    obtain ⟨p, hp, hpt⟩ := List.mem_map.mp ht
    obtain ⟨hpe, hpc⟩ := List.mem_filter.mp hp
    have hget : l[p.1]? = some p.2 := List.mem_enum_iff_getElem?.mp hpe
    refine ⟨p.1, ?_, ?_⟩
    · rw [hget, hpt]
    · rw [hpt] at hpc
      simpa using hpc
  · rintro ⟨i, hget, hidx⟩
    refine List.mem_map.mpr ⟨(i, t), List.mem_filter.mpr ⟨?_, ?_⟩, rfl⟩
    · exact List.mem_enum_iff_getElem?.mpr hget
    · simp [hidx]

lemma uniqueSources_sublist (l : List Source) : (uniqueSourcesOf l).Sublist l := by
  unfold uniqueSourcesOf
  have h1 : (l.enum.filter
      (fun p =>
        l.findIdx (fun s => s.title == p.2.title && s.source == p.2.source) == p.1)).Sublist
      l.enum := List.filter_sublist l.enum
  have h := h1.map Prod.snd
  rw [List.enum_map_snd] at h
  exact h

lemma uniqueSources_pairwise (l : List Source) :
    (uniqueSourcesOf l).Pairwise
      (fun a b => ¬(a.title = b.title ∧ a.source = b.source)) := by
  unfold uniqueSourcesOf
  rw [List.pairwise_map]
  have hlt : (l.enum.filter
      (fun p =>
        l.findIdx (fun s => s.title == p.2.title && s.source == p.2.source) == p.1)).Pairwise
      (fun p q => p.1 < q.1) :=
    List.Pairwise.sublist (List.filter_sublist _) (pairwise_fst_lt_enum l)
  refine List.Pairwise.imp_of_mem ?_ hlt
  intro p q hp hq h1 hk
  have hpc := (List.mem_filter.mp hp).2
  have hqc := (List.mem_filter.mp hq).2
  have hpi : l.findIdx (fun s => s.title == p.2.title && s.source == p.2.source) = p.1 := by
    simpa using hpc
  have hqi : l.findIdx (fun s => s.title == q.2.title && s.source == q.2.source) = q.1 := by
    simpa using hqc
  have heq : p.1 = q.1 := by
    rw [← hpi, ← hqi, findIdx_key_congr hk.1 hk.2]
  omega

lemma uniqueSources_covers (l : List Source) :
    ∀ s ∈ l, ∃ t ∈ uniqueSourcesOf l, t.title = s.title ∧ t.source = s.source := by
  intro s hs
  have hex : ∃ x ∈ l, (x.title == s.title && x.source == s.source) = true :=
    ⟨s, hs, by simp⟩
  have hlt := List.findIdx_lt_length_of_exists hex
  have hpt := @List.findIdx_getElem _ (fun x => x.title == s.title && x.source == s.source) l hlt
  simp only [Bool.and_eq_true, beq_iff_eq] at hpt
  refine ⟨l[l.findIdx (fun x => x.title == s.title && x.source == s.source)],
    ?_, hpt.1, hpt.2⟩
  apply mem_uniqueSources_iff.mpr
  refine ⟨l.findIdx (fun x => x.title == s.title && x.source == s.source),
    List.getElem?_eq_getElem hlt, ?_⟩
  rw [findIdx_key_congr hpt.1 hpt.2]

lemma uniqueSources_first_occurrence (l : List Source) :
    ∀ t ∈ uniqueSourcesOf l,
      l.find? (fun s => s.title == t.title && s.source == t.source) = some t := by
  intro t ht
  obtain ⟨i, hget, hidx⟩ := mem_uniqueSources_iff.mp ht
  rw [find?_eq_getElem?_findIdx, hidx, hget]

/-- C7: the aggregate source list `showResults` surfaces is deduplicated by
(title, publisher): it is a subsequence of the claim-order concatenation of
all claims' sources, no two surfaced entries share a (title, source) pair,
every collected source has a key-equal representative surfaced, and every
surfaced entry is the first occurrence of its (title, source) pair — so
exactly the first occurrence of each pair is kept and later duplicates are
removed. -/
theorem sources_dedup_by_title_publisher (result : FactCheckResult) :
    (uniqueSourcesOf (allSourcesOf result)).Sublist (allSourcesOf result) ∧
    (uniqueSourcesOf (allSourcesOf result)).Pairwise
      (fun a b => ¬(a.title = b.title ∧ a.source = b.source)) ∧
    (∀ s ∈ allSourcesOf result, ∃ t ∈ uniqueSourcesOf (allSourcesOf result),
      t.title = s.title ∧ t.source = s.source) ∧
    ∀ t ∈ uniqueSourcesOf (allSourcesOf result),
      (allSourcesOf result).find?
        (fun s => s.title == t.title && s.source == t.source) = some t :=
  ⟨uniqueSources_sublist _, uniqueSources_pairwise _, uniqueSources_covers _,
   uniqueSources_first_occurrence _⟩

/-- Fixture: a result whose second claim repeats the (title, publisher)
pair of the first claim's first source under a different URL. -/
def resultEx : FactCheckResult :=
  ⟨"u", 0.5, "medium", none,
    [⟨"c1", JsValue.bool true, "v1",
        [⟨"Title A", "Publisher P", "https://a.example/1"⟩,
         ⟨"Title B", "Publisher Q", "https://b.example"⟩]⟩,
     ⟨"c2", JsValue.null, "v2",
        [⟨"Title A", "Publisher P", "https://a.example/2"⟩]⟩], true⟩

theorem sources_dedup_by_title_publisher_witness :
    ∃ t ∈ uniqueSourcesOf (allSourcesOf resultEx),
      t.title = "Title A" ∧ t.source = "Publisher P" :=
  (sources_dedup_by_title_publisher resultEx).2.2.1
    ⟨"Title A", "Publisher P", "https://a.example/2"⟩ (by decide)
